import Mathlib

/-!
Verification of the attendance state machine of the Discord clock-in/out bot
in src/bot.py, as a shallow embedding.

Modelling choices, traced from the source:
  - Times are seconds since an epoch (Int).  All stored timestamps in the
    source are strings produced by strftime with format "%Y-%m-%d %H:%M:%S"
    and parsed back with strptime of the same format, which round-trips at
    second granularity; a stored string is therefore modelled as either the
    time value it parses back to (TimeStr.good) or a corrupted string on
    which strptime raises ValueError (TimeStr.bad).
  - The in-memory python dicts active_shifts and last_clockouts (insertion
    ordered, unique keys) are modelled as association lists with the usual
    dict get / set / delete operations; the set excluded_user_ids is a list
    used as a set.  The SQLite tables mirror these dicts write-through and
    carry no extra behaviour, so they are not modelled separately.
  - The external spreadsheet append (sheet.append_row inside try/except) is
    an external call that either succeeds or raises; each command takes a
    Bool sinkOk saying whether that call succeeds.
  - Discord message sending and name resolution are platform glue with no
    effect on the attendance state and are not modelled.
-/

namespace ClockBot

abbrev UserId := Nat
abbrev GuildId := Nat


/-- A persisted timestamp string: strftime output round-trips through
strptime back to its time value (good t); a corrupted stored string makes
strptime raise ValueError (bad s). -/
inductive TimeStr where
  | good : Int → TimeStr
  | bad : String → TimeStr
deriving DecidableEq, Repr

/-- Model of strptime "%Y-%m-%d %H:%M:%S" on a stored string: succeeds
exactly on round-tripped strftime output, raises (none) on a corrupted
string. -/
def parseTime : TimeStr → Option Int
  | TimeStr.good t => some t
  | TimeStr.bad _ => none

/-- One value of the active_shifts dict (bot.py line 242 and line 315):
the stored clock-in string and the guild the shift was opened in
(none for rows predating the guild_id migration). -/
structure Shift where
  clock_in : TimeStr
  guild_id : Option GuildId
deriving DecidableEq, Repr

/-- Dict lookup: d.get(u) / u in d on a python dict modelled as an
association list. -/
def dictGet {α : Type} : List (UserId × α) → UserId → Option α
  | [], _ => none
  | p :: d, u => if p.1 = u then some p.2 else dictGet d u

/-- Dict assignment d[u] = v: replace in place if the key is present,
append otherwise (python dicts keep insertion order). -/
def dictSet {α : Type} : List (UserId × α) → UserId → α → List (UserId × α)
  | [], u, v => [(u, v)]
  | p :: d, u, v => if p.1 = u then (u, v) :: d else p :: dictSet d u v

/-- Dict deletion del d[u]: drop the entry with that key. -/
def dictDel {α : Type} : List (UserId × α) → UserId → List (UserId × α)
  | [], _ => []
  | p :: d, u => if p.1 = u then dictDel d u else p :: dictDel d u

/-- The keys of a dict, in insertion order. -/
def dictKeys {α : Type} (d : List (UserId × α)) : List UserId :=
  d.map Prod.fst

/-- The whole in-memory state of the bot: the excluded_user_ids set, the
active_shifts dict and the last_clockouts dict (bot.py lines 173-176);
the SQLite tables mirror these write-through. -/
structure BotState where
  excluded_user_ids : List UserId
  active_shifts : List (UserId × Shift)
  last_clockouts : List (UserId × TimeStr)
deriving DecidableEq, Repr

/-- cooldown_period = timedelta(minutes=5) (bot.py line 204), in seconds. -/
def cooldown_period : Int := 5 * 60

/-- The maximum shift duration timedelta(hours=14) (bot.py line 609), in
seconds. -/
def max_shift_duration : Int := 14 * 3600

/-- can_clock_in (bot.py lines 190-218) with the state it reads threaded
explicitly: returns the decision together with the state as it is when the
function returns.  Every return path of the source only reads the three
maps, so every branch returns the state unchanged. -/
def can_clock_in_run (s : BotState) (user_id : UserId) (now : Int) :
    Bool × BotState :=
  if user_id ∈ s.excluded_user_ids then (false, s)
  else if (dictGet s.active_shifts user_id).isSome then (false, s)
  else
    match dictGet s.last_clockouts user_id with
    | some last_out_str =>
      match parseTime last_out_str with
      | some last_out_time =>
        if now - last_out_time < cooldown_period then (false, s) else (true, s)
      | none => (true, s)
    | none => (true, s)

/-- The decision part of can_clock_in. -/
def can_clock_in (s : BotState) (user_id : UserId) (now : Int) : Bool :=
  (can_clock_in_run s user_id now).1

/-- save_active_shift_db (bot.py lines 112-118): INSERT OR REPLACE of the
shift row keyed by user_id, i.e. an unconditional upsert. -/
def save_active_shift_db (d : List (UserId × Shift)) (user_id : UserId)
    (clock_in : TimeStr) (guild_id : Option GuildId) : List (UserId × Shift) :=
  dictSet d user_id (Shift.mk clock_in guild_id)

/-- Outcome of the manual clockin command, one per return path. -/
inductive ClockinOutcome where
  | excludedMember
  | cannotClockIn
  | sheetsFailed
  | clockedIn
deriving DecidableEq, Repr

/-- The clockin admin command (bot.py lines 266-322), target user already
resolved.  Order of the source: excluded check (line 290), eligibility
check (line 294), spreadsheet append with early return on failure
(lines 305-312), then the local mutation (lines 315-316). -/
def clockin (s : BotState) (user_id : UserId) (guild_id : GuildId)
    (now : Int) (sinkOk : Bool) : BotState × ClockinOutcome :=
  if user_id ∈ s.excluded_user_ids then (s, ClockinOutcome.excludedMember)
  else if !(can_clock_in s user_id now) then (s, ClockinOutcome.cannotClockIn)
  else if !sinkOk then (s, ClockinOutcome.sheetsFailed)
  else
    ({ s with active_shifts := dictSet s.active_shifts user_id (Shift.mk (TimeStr.good now) (some guild_id)) },
     ClockinOutcome.clockedIn)

/-- The automatic clock-in on a voice channel join (bot.py lines 220-258,
the branch where a non-bot member enters a new channel).  The local
mutation (lines 242-243) happens before the spreadsheet append, whose
failure is swallowed (lines 245-250), so the resulting state does not
depend on the sink outcome. -/
def auto_clockin (s : BotState) (user_id : UserId) (guild_id : GuildId)
    (now : Int) (_sinkOk : Bool) : BotState :=
  if user_id ∈ s.excluded_user_ids then s
  else if can_clock_in s user_id now then
    { s with active_shifts := dictSet s.active_shifts user_id (Shift.mk (TimeStr.good now) (some guild_id)) }
  else s

/-- Outcome of a clock-out command, one per return path. -/
inductive ClockoutOutcome where
  | excludedMember
  | sheetsFailed
  | clockedOut
  | clockedOutNotActive
deriving DecidableEq, Repr

/-- The clockout employee command (bot.py lines 487-528).  Order of the
source: excluded check (line 496), was_active snapshot (line 504),
spreadsheet append with early return on failure (lines 506-513), removal
of the active shift when there was one (lines 516-518), unconditional
last_clockouts update (lines 521-522), and a flagged response when the
user was not active (line 528). -/
def clockout (s : BotState) (user_id : UserId) (now : Int) (sinkOk : Bool) :
    BotState × ClockoutOutcome :=
  if user_id ∈ s.excluded_user_ids then (s, ClockoutOutcome.excludedMember)
  else
    let was_active := (dictGet s.active_shifts user_id).isSome
    if !sinkOk then (s, ClockoutOutcome.sheetsFailed)
    else
      let s1 := if was_active then
          { s with active_shifts := dictDel s.active_shifts user_id }
        else s
      let s2 := { s1 with last_clockouts := dictSet s1.last_clockouts user_id (TimeStr.good now) }
      (s2, if was_active then ClockoutOutcome.clockedOut
           else ClockoutOutcome.clockedOutNotActive)

/-- The forceclockout admin command (bot.py lines 445-483): same shape as
clockout but with no excluded check; spreadsheet append with early return
on failure (lines 461-468), conditional shift removal (lines 471-473),
unconditional last_clockouts update (lines 476-477), flagged response when
the user was not active (line 483). -/
def forceclockout (s : BotState) (user_id : UserId) (now : Int)
    (sinkOk : Bool) : BotState × ClockoutOutcome :=
  let was_active := (dictGet s.active_shifts user_id).isSome
  if !sinkOk then (s, ClockoutOutcome.sheetsFailed)
  else
    let s1 := if was_active then
        { s with active_shifts := dictDel s.active_shifts user_id }
      else s
    let s2 := { s1 with last_clockouts := dictSet s1.last_clockouts user_id (TimeStr.good now) }
    (s2, if was_active then ClockoutOutcome.clockedOut
         else ClockoutOutcome.clockedOutNotActive)

/-- Outcome of the exclude command. -/
inductive ExcludeOutcome where
  | alreadyExcluded
  | excluded
deriving DecidableEq, Repr

/-- The exclude admin command (bot.py lines 324-360), target already
resolved: early return if already excluded (lines 348-350), add to the
set (lines 352-353), then force-close any active shift without touching
last_clockouts (lines 356-358). -/
def exclude (s : BotState) (user_id : UserId) : BotState × ExcludeOutcome :=
  if user_id ∈ s.excluded_user_ids then (s, ExcludeOutcome.alreadyExcluded)
  else
    let s1 := { s with excluded_user_ids := s.excluded_user_ids ++ [user_id] }
    let s2 := if (dictGet s1.active_shifts user_id).isSome then
        { s1 with active_shifts := dictDel s1.active_shifts user_id }
      else s1
    (s2, ExcludeOutcome.excluded)

/-- Outcome of the include command. -/
inductive IncludeOutcome where
  | notExcluded
  | included
deriving DecidableEq, Repr

/-- The include admin command (bot.py lines 362-393), target already
resolved: early return if not excluded (lines 386-388), otherwise remove
from the set (lines 390-391).  Named include_user because include is a
Lean keyword. -/
def include_user (s : BotState) (user_id : UserId) : BotState × IncludeOutcome :=
  if user_id ∈ s.excluded_user_ids then
    ({ s with excluded_user_ids := s.excluded_user_ids.filter (fun v => v ≠ user_id) },
     IncludeOutcome.included)
  else (s, IncludeOutcome.notExcluded)

/-- Whether one active_shifts entry is expired at time now (bot.py lines
601-609): the stored clock-in string must parse, and the shift must have
lasted at least max_shift_duration; an unparseable string means the entry
is skipped (continue, line 606). -/
def is_expired (now : Int) (p : UserId × Shift) : Bool :=
  match parseTime p.2.clock_in with
  | none => false
  | some clock_in_time => max_shift_duration ≤ now - clock_in_time

/-- One iteration of the sweeper loop body (bot.py lines 597-625) acting on
the accumulator (state, expired list, emitted Auto log rows): skip entries
whose clock-in string does not parse, and for expired entries update
last_clockouts, record the user in expired and emit the
"Clock Out (Auto)" log row (the spreadsheet append is attempted inside
try/except and its failure swallowed, lines 614-619, so emission here
models the attempt). -/
def sweep_step (now : Int)
    (acc : BotState × List UserId × List (UserId × Int)) (p : UserId × Shift) :
    BotState × List UserId × List (UserId × Int) :=
  match parseTime p.2.clock_in with
  | none => acc
  | some clock_in_time =>
    if max_shift_duration ≤ now - clock_in_time then
      ({ acc.1 with last_clockouts := dictSet acc.1.last_clockouts p.1 (TimeStr.good now) },
       acc.2.1 ++ [p.1], acc.2.2 ++ [(p.1, now)])
    else acc

/-- The auto_clockout_expired_shifts task body (bot.py lines 586-670): fold
the loop body over a snapshot of active_shifts, then delete the expired
shifts (lines 668-670).  Returns the new state and the list of
Auto-tagged expiry log rows (user, time). -/
def sweep_tick (s : BotState) (now : Int) : BotState × List (UserId × Int) :=
  let r := s.active_shifts.foldl (sweep_step now) (s, [], [])
  ({ r.1 with active_shifts := r.2.1.foldl dictDel r.1.active_shifts }, r.2.2)

/-- One externally triggered operation on the bot state, for invariant
theorems quantifying over operation sequences. -/
inductive Op where
  | cin (user_id : UserId) (guild_id : GuildId) (now : Int) (sinkOk : Bool)
  | vjoin (user_id : UserId) (guild_id : GuildId) (now : Int) (sinkOk : Bool)
  | cout (user_id : UserId) (now : Int) (sinkOk : Bool)
  | fcout (user_id : UserId) (now : Int) (sinkOk : Bool)
  | excl (user_id : UserId)
  | incl (user_id : UserId)
  | sweep (now : Int)
deriving DecidableEq, Repr

/-- Apply one operation to the state, discarding the user-facing outcome. -/
def applyOp (s : BotState) : Op → BotState
  | Op.cin u g now k => (clockin s u g now k).1
  | Op.vjoin u g now k => auto_clockin s u g now k
  | Op.cout u now k => (clockout s u now k).1
  | Op.fcout u now k => (forceclockout s u now k).1
  | Op.excl u => (exclude s u).1
  | Op.incl u => (include_user s u).1
  | Op.sweep now => (sweep_tick s now).1

/-- Apply a sequence of operations in order. -/
def applyOps (s : BotState) (ops : List Op) : BotState :=
  ops.foldl applyOp s

/-- The at-most-one-open-shift-per-user invariant: the keys of the
active_shifts dict are distinct. -/
def shiftKeysNodup (s : BotState) : Prop :=
  (dictKeys s.active_shifts).Nodup

instance (s : BotState) : Decidable (shiftKeysNodup s) := by
  unfold shiftKeysNodup
  infer_instance

/-! ### Dictionary lemmas -/

theorem dictGet_cons {α : Type} (p : UserId × α) (d : List (UserId × α)) (u : UserId) :
    dictGet (p :: d) u = if p.1 = u then some p.2 else dictGet d u := rfl

theorem dictKeys_cons {α : Type} (p : UserId × α) (d : List (UserId × α)) :
    dictKeys (p :: d) = p.1 :: dictKeys d := rfl

theorem dictGet_dictSet {α : Type} (d : List (UserId × α)) (u v : UserId) (x : α) :
    dictGet (dictSet d u x) v = if u = v then some x else dictGet d v := by
  induction d with
  | nil => by_cases h : u = v <;> simp [dictSet, dictGet, h]
  | cons p d ih =>
    by_cases hp : p.1 = u
    · by_cases h : u = v <;> simp [dictSet, dictGet, hp, h]
    · by_cases h : u = v
      · subst h
        simp [dictSet, dictGet, hp, ih]
      · simp [dictSet, dictGet, hp, h, ih]

theorem dictGet_dictDel {α : Type} (d : List (UserId × α)) (u v : UserId) :
    dictGet (dictDel d u) v = if u = v then none else dictGet d v := by
  induction d with
  | nil => simp [dictDel, dictGet]
  | cons p d ih =>
    by_cases hp : p.1 = u
    · by_cases h : u = v
      · subst h
        simp [dictDel, dictGet, hp, ih]
      · simp [dictDel, dictGet, hp, h, ih]
    · by_cases h : u = v <;> by_cases hv : p.1 = v <;>
        simp_all [dictDel, dictGet, hp, h, hv, ih]

theorem dictGet_foldl_dictDel {α : Type} (l : List UserId) (d : List (UserId × α)) (v : UserId) :
    dictGet (l.foldl dictDel d) v = if v ∈ l then none else dictGet d v := by
  induction l generalizing d with
  | nil => simp
  | cons a l ih =>
    rw [List.foldl_cons, ih, dictGet_dictDel]
    by_cases h : v ∈ l
    · simp [h, List.mem_cons]
    · by_cases ha : v = a
      · subst ha
        simp [h, List.mem_cons]
      · have ha2 : ¬a = v := fun he => ha he.symm
        simp [h, ha, ha2, List.mem_cons]

theorem mem_of_dictGet_eq_some {α : Type} {d : List (UserId × α)} {u : UserId} {x : α}
    (h : dictGet d u = some x) : (u, x) ∈ d := by
  induction d with
  | nil => simp [dictGet] at h
  | cons p d ih =>
    rw [dictGet_cons] at h
    by_cases hp : p.1 = u
    · rw [if_pos hp] at h
      have hx : p.2 = x := by injection h
      have hpe : p = (u, x) := by
        obtain ⟨p1, p2⟩ := p
        simp_all
      rw [← hpe]
      exact List.mem_cons_self p d
    · rw [if_neg hp] at h
      exact List.mem_cons_of_mem p (ih h)

theorem dictGet_eq_some_of_mem_nodup {α : Type} {d : List (UserId × α)}
    (hn : (dictKeys d).Nodup) {u : UserId} {x : α} (h : (u, x) ∈ d) :
    dictGet d u = some x := by
  induction d with
  | nil => simp at h
  | cons p d ih =>
    rw [dictKeys_cons, List.nodup_cons] at hn
    rcases List.mem_cons.mp h with h1 | h2
    · rw [← h1]
      simp [dictGet_cons]
    · have hu : u ∈ dictKeys d := by
        have := List.mem_map_of_mem Prod.fst h2
        exact this
      have hp : p.1 ≠ u := fun he => hn.1 (he ▸ hu)
      rw [dictGet_cons, if_neg hp]
      exact ih hn.2 h2

theorem dictGet_eq_none_iff {α : Type} (d : List (UserId × α)) (u : UserId) :
    dictGet d u = none ↔ ∀ p ∈ d, p.1 ≠ u := by
  induction d with
  | nil => simp [dictGet]
  | cons p d ih =>
    rw [dictGet_cons]
    by_cases hp : p.1 = u <;> simp [hp, ih]

theorem dictKeys_dictSet {α : Type} (d : List (UserId × α)) (u : UserId) (x : α) :
    dictKeys (dictSet d u x) =
      if u ∈ dictKeys d then dictKeys d else dictKeys d ++ [u] := by
  induction d with
  | nil => simp [dictSet, dictKeys]
  | cons p d ih =>
    by_cases hp : p.1 = u
    · simp [dictSet, hp, dictKeys_cons, List.mem_cons]
    · have hne : ¬u = p.1 := fun he => hp he.symm
      by_cases h : u ∈ dictKeys d <;>
        simp [dictSet, hp, hne, h, dictKeys_cons, List.mem_cons, ih]

theorem nodup_dictKeys_dictSet {α : Type} {d : List (UserId × α)}
    (hn : (dictKeys d).Nodup) (u : UserId) (x : α) :
    (dictKeys (dictSet d u x)).Nodup := by
  rw [dictKeys_dictSet]
  split
  · exact hn
  · rename_i h
    simp [List.nodup_append, hn, h]

theorem mem_dictKeys_dictDel {α : Type} {d : List (UserId × α)} {u v : UserId}
    (h : v ∈ dictKeys (dictDel d u)) : v ∈ dictKeys d := by
  induction d with
  | nil => simp [dictDel, dictKeys] at h
  | cons p d ih =>
    by_cases hp : p.1 = u
    · rw [dictKeys_cons]
      simp only [dictDel, if_pos hp] at h
      exact List.mem_cons_of_mem _ (ih h)
    · simp only [dictDel, if_neg hp, dictKeys_cons, List.mem_cons] at h ⊢
      rcases h with h | h
      · exact Or.inl h
      · exact Or.inr (ih h)

theorem nodup_dictKeys_dictDel {α : Type} {d : List (UserId × α)}
    (hn : (dictKeys d).Nodup) (u : UserId) :
    (dictKeys (dictDel d u)).Nodup := by
  induction d with
  | nil => simp [dictDel, dictKeys]
  | cons p d ih =>
    rw [dictKeys_cons, List.nodup_cons] at hn
    by_cases hp : p.1 = u
    · simp only [dictDel, if_pos hp]
      exact ih hn.2
    · simp only [dictDel, if_neg hp, dictKeys_cons, List.nodup_cons]
      exact ⟨fun hm => hn.1 (mem_dictKeys_dictDel hm), ih hn.2⟩

theorem nodup_dictKeys_foldl_dictDel {α : Type} (l : List UserId)
    {d : List (UserId × α)} (hn : (dictKeys d).Nodup) :
    (dictKeys (l.foldl dictDel d)).Nodup := by
  induction l generalizing d with
  | nil => exact hn
  | cons a l ih => exact ih (nodup_dictKeys_dictDel hn a)

/-! ### Sweeper characterization lemmas -/

theorem sweep_step_active (now : Int)
    (acc : BotState × List UserId × List (UserId × Int)) (p : UserId × Shift) :
    ((sweep_step now acc p).1).active_shifts = acc.1.active_shifts := by
  unfold sweep_step
  rcases h : parseTime p.2.clock_in with _ | t <;> simp [h]
  split <;> rfl

theorem sweep_step_expired (now : Int)
    (acc : BotState × List UserId × List (UserId × Int)) (p : UserId × Shift) :
    (sweep_step now acc p).2.1 =
      acc.2.1 ++ if is_expired now p then [p.1] else [] := by
  unfold sweep_step is_expired
  rcases h : parseTime p.2.clock_in with _ | t <;> simp [h]
  split <;> simp_all

theorem sweep_step_events (now : Int)
    (acc : BotState × List UserId × List (UserId × Int)) (p : UserId × Shift) :
    (sweep_step now acc p).2.2 =
      acc.2.2 ++ if is_expired now p then [(p.1, now)] else [] := by
  unfold sweep_step is_expired
  rcases h : parseTime p.2.clock_in with _ | t <;> simp [h]
  split <;> simp_all

theorem sweep_step_last (now : Int)
    (acc : BotState × List UserId × List (UserId × Int)) (p : UserId × Shift) :
    ((sweep_step now acc p).1).last_clockouts =
      if is_expired now p then dictSet acc.1.last_clockouts p.1 (TimeStr.good now)
      else acc.1.last_clockouts := by
  unfold sweep_step is_expired
  rcases h : parseTime p.2.clock_in with _ | t <;> simp [h]
  split <;> simp_all

theorem sweep_fold_active (now : Int) (l : List (UserId × Shift))
    (acc : BotState × List UserId × List (UserId × Int)) :
    ((l.foldl (sweep_step now) acc).1).active_shifts = acc.1.active_shifts := by
  induction l generalizing acc with
  | nil => rfl
  | cons p l ih => rw [List.foldl_cons, ih, sweep_step_active]

theorem sweep_fold_expired (now : Int) (l : List (UserId × Shift))
    (acc : BotState × List UserId × List (UserId × Int)) :
    (l.foldl (sweep_step now) acc).2.1 =
      acc.2.1 ++ (l.filter (is_expired now)).map Prod.fst := by
  induction l generalizing acc with
  | nil => simp
  | cons p l ih =>
    rw [List.foldl_cons, ih, sweep_step_expired, List.filter_cons]
    by_cases h : is_expired now p = true <;> simp [h]

theorem sweep_fold_events (now : Int) (l : List (UserId × Shift))
    (acc : BotState × List UserId × List (UserId × Int)) :
    (l.foldl (sweep_step now) acc).2.2 =
      acc.2.2 ++ (l.filter (is_expired now)).map (fun p => (p.1, now)) := by
  induction l generalizing acc with
  | nil => simp
  | cons p l ih =>
    rw [List.foldl_cons, ih, sweep_step_events, List.filter_cons]
    by_cases h : is_expired now p = true <;> simp [h]

theorem sweep_fold_last (now : Int) (l : List (UserId × Shift))
    (acc : BotState × List UserId × List (UserId × Int)) :
    ((l.foldl (sweep_step now) acc).1).last_clockouts =
      (l.filter (is_expired now)).foldl
        (fun m p => dictSet m p.1 (TimeStr.good now)) acc.1.last_clockouts := by
  induction l generalizing acc with
  | nil => rfl
  | cons p l ih =>
    rw [List.foldl_cons, ih, List.filter_cons]
    by_cases h : is_expired now p = true
    · rw [if_pos h, List.foldl_cons, sweep_step_last, if_pos h]
    · rw [if_neg h, sweep_step_last, if_neg h]

theorem dictGet_foldl_dictSet_const {α β : Type} (l : List (UserId × β))
    (m : List (UserId × α)) (x : α) (v : UserId) :
    dictGet (l.foldl (fun m p => dictSet m p.1 x) m) v =
      if v ∈ l.map Prod.fst then some x else dictGet m v := by
  induction l generalizing m with
  | nil => simp
  | cons p l ih =>
    rw [List.foldl_cons, ih]
    by_cases h : v ∈ l.map Prod.fst
    · simp [h, List.mem_cons]
    · by_cases hv : v = p.1
      · subst hv
        simp [h, dictGet_dictSet, List.mem_cons]
      · have hv2 : ¬p.1 = v := fun he => hv he.symm
        simp [h, hv, hv2, dictGet_dictSet, List.mem_cons]

theorem sweep_tick_active (s : BotState) (now : Int) (v : UserId) :
    dictGet ((sweep_tick s now).1).active_shifts v =
      if v ∈ (s.active_shifts.filter (is_expired now)).map Prod.fst then none
      else dictGet s.active_shifts v := by
  unfold sweep_tick
  dsimp only
  rw [dictGet_foldl_dictDel, sweep_fold_active, sweep_fold_expired]
  simp

theorem sweep_tick_last (s : BotState) (now : Int) (v : UserId) :
    dictGet ((sweep_tick s now).1).last_clockouts v =
      if v ∈ (s.active_shifts.filter (is_expired now)).map Prod.fst
      then some (TimeStr.good now)
      else dictGet s.last_clockouts v := by
  unfold sweep_tick
  dsimp only
  rw [sweep_fold_last, dictGet_foldl_dictSet_const]

theorem sweep_tick_events (s : BotState) (now : Int) :
    (sweep_tick s now).2 =
      (s.active_shifts.filter (is_expired now)).map (fun p => (p.1, now)) := by
  unfold sweep_tick
  dsimp only
  rw [sweep_fold_events]
  simp

theorem mem_expiredKeys_iff {s : BotState} (hn : shiftKeysNodup s) {u : UserId}
    {sh : Shift} (hget : dictGet s.active_shifts u = some sh) (now : Int) :
    u ∈ (s.active_shifts.filter (is_expired now)).map Prod.fst ↔
      is_expired now (u, sh) = true := by
  constructor
  · intro h
    rcases List.mem_map.mp h with ⟨p, hpf, hpu⟩
    rcases List.mem_filter.mp hpf with ⟨hpmem, hpe⟩
    have hpget : dictGet s.active_shifts p.1 = some p.2 :=
      dictGet_eq_some_of_mem_nodup hn hpmem
    rw [hpu, hget] at hpget
    have hsh : p.2 = sh := (Option.some.inj hpget).symm
    have hpp : p = (u, sh) := by
      obtain ⟨p1, p2⟩ := p
      simp_all
    rw [← hpp]
    exact hpe
  · intro h
    exact List.mem_map.mpr
      ⟨(u, sh), List.mem_filter.mpr ⟨mem_of_dictGet_eq_some hget, h⟩, rfl⟩

/-! ### Eligibility helper lemmas -/

theorem can_clock_in_of_active {s : BotState} {u : UserId} (now : Int)
    (h : (dictGet s.active_shifts u).isSome = true) :
    can_clock_in s u now = false := by
  unfold can_clock_in can_clock_in_run
  by_cases he : u ∈ s.excluded_user_ids <;> simp [he, h]

theorem can_clock_in_of_excluded {s : BotState} {u : UserId} (now : Int)
    (h : u ∈ s.excluded_user_ids) : can_clock_in s u now = false := by
  unfold can_clock_in can_clock_in_run
  simp [h]

theorem can_clock_in_eq_of_parsed {s : BotState} {u : UserId} {ts : TimeStr}
    {t : Int} (he : u ∉ s.excluded_user_ids)
    (hact : dictGet s.active_shifts u = none)
    (hlast : dictGet s.last_clockouts u = some ts)
    (hp : parseTime ts = some t) (now : Int) :
    can_clock_in s u now = !decide (now - t < cooldown_period) := by
  unfold can_clock_in can_clock_in_run
  by_cases hc : now - t < cooldown_period <;> simp [he, hact, hlast, hp, hc]

theorem can_clock_in_eq_of_no_last {s : BotState} {u : UserId}
    (he : u ∉ s.excluded_user_ids) (hact : dictGet s.active_shifts u = none)
    (hlast : dictGet s.last_clockouts u = none) (now : Int) :
    can_clock_in s u now = true := by
  unfold can_clock_in can_clock_in_run
  simp [he, hact, hlast]

theorem can_clock_in_eq_of_bad_parse {s : BotState} {u : UserId} {ts : TimeStr}
    (he : u ∉ s.excluded_user_ids) (hact : dictGet s.active_shifts u = none)
    (hlast : dictGet s.last_clockouts u = some ts)
    (hp : parseTime ts = none) (now : Int) :
    can_clock_in s u now = true := by
  unfold can_clock_in can_clock_in_run
  simp [he, hact, hlast, hp]

/-! ### Claim theorems -/

/-- Claim C9: the eligibility decision can_clock_in has no side effects:
on every input the state it returns alongside the decision is exactly the
state it was given, so the open-shift map, the last-clockout map and the
exclusion set are unchanged by evaluating it. -/
theorem c9_can_clock_in_pure (s : BotState) (u : UserId) (now : Int) :
    (can_clock_in_run s u now).2 = s := by
  unfold can_clock_in_run
  by_cases he : u ∈ s.excluded_user_ids
  · simp [he]
  · by_cases ha : (dictGet s.active_shifts u).isSome = true
    · simp [he, ha]
    · rcases hts : dictGet s.last_clockouts u with _ | ts
      · simp [he, ha, hts]
      · rcases hp : parseTime ts with _ | t
        · simp [he, ha, hts, hp]
        · by_cases hc : now - t < cooldown_period <;> simp [he, ha, hts, hp, hc]

/-- Claim C10: when the stored last-clockout string of a user fails to
parse, can_clock_in skips the cooldown check and returns the allowed
decision, provided the user is not excluded and has no open shift. -/
theorem c10_corrupt_last_clockout_allows (s : BotState) (u : UserId)
    (now : Int) (ts : TimeStr)
    (hexcl : u ∉ s.excluded_user_ids)
    (hact : dictGet s.active_shifts u = none)
    (hlast : dictGet s.last_clockouts u = some ts)
    (hbad : parseTime ts = none) :
    can_clock_in s u now = true := by
  unfold can_clock_in can_clock_in_run
  simp [hexcl, hact, hlast, hbad]

/-- Witness for claim C10 at a concrete corrupted record. -/
theorem c10_corrupt_last_clockout_allows_witness :
    can_clock_in (BotState.mk [] [] [(1, TimeStr.bad "oops")]) 1 1000 = true :=
  c10_corrupt_last_clockout_allows (BotState.mk [] [] [(1, TimeStr.bad "oops")])
    1 1000 (TimeStr.bad "oops") (by decide) rfl rfl rfl

/-- Claim C3: can_clock_in at time now denies an excluded user, denies a
user with an open shift, denies a user whose parsed last clock-out is
strictly less than the 5-minute cooldown before now, and allows otherwise;
the comparison is strict, so at exactly last clock-out plus the cooldown
the user is allowed. -/
theorem c3_can_clock_in_characterization (s : BotState) (u : UserId)
    (now T : Int) :
    (can_clock_in s u now = true ↔
      u ∉ s.excluded_user_ids ∧ dictGet s.active_shifts u = none ∧
        ∀ ts t, dictGet s.last_clockouts u = some ts → parseTime ts = some t →
          cooldown_period ≤ now - t)
    ∧ (u ∉ s.excluded_user_ids → dictGet s.active_shifts u = none →
        dictGet s.last_clockouts u = some (TimeStr.good T) →
        can_clock_in s u (T + cooldown_period) = true) := by
  constructor
  · by_cases he : u ∈ s.excluded_user_ids
    · rw [can_clock_in_of_excluded now he]
      simp [he]
    · rcases hact : dictGet s.active_shifts u with _ | sh
      · rcases hlast : dictGet s.last_clockouts u with _ | ts
        · rw [can_clock_in_eq_of_no_last he hact hlast now]
          simp only [true_iff]
          refine ⟨he, by trivial, ?_⟩
          intro ts2 t2 h1 h2
          cases h1
        · rcases hp : parseTime ts with _ | t
          · rw [can_clock_in_eq_of_bad_parse he hact hlast hp now]
            simp only [true_iff]
            refine ⟨he, by trivial, ?_⟩
            intro ts2 t2 h1 h2
            have hts : ts = ts2 := Option.some.inj h1
            rw [← hts, hp] at h2
            cases h2
          · rw [can_clock_in_eq_of_parsed he hact hlast hp now]
            constructor
            · intro hcc
              refine ⟨he, by trivial, ?_⟩
              intro ts2 t2 h1 h2
              have hts : ts = ts2 := Option.some.inj h1
              rw [← hts, hp] at h2
              have ht : t = t2 := Option.some.inj h2
              simp only [Bool.not_eq_true', decide_eq_false_iff_not] at hcc
              omega
            · rintro ⟨-, -, hall⟩
              have hle := hall ts t rfl hp
              simp only [Bool.not_eq_true', decide_eq_false_iff_not]
              omega
      · rw [can_clock_in_of_active now (by simp [hact])]
        simp [hact]
  · intro h1 h2 h3
    rw [can_clock_in_eq_of_parsed h1 h2 h3 rfl (T + cooldown_period)]
    simp only [Bool.not_eq_true', decide_eq_false_iff_not]
    omega

/-- Witness for claim C3: the boundary case at exactly last clock-out plus
the cooldown, on a concrete state. -/
theorem c3_witness :
    can_clock_in (BotState.mk [] [] [(1, TimeStr.good 0)]) 1
      (0 + cooldown_period) = true :=
  (c3_can_clock_in_characterization (BotState.mk [] [] [(1, TimeStr.good 0)])
    1 0 0).2 (by decide) rfl rfl

/-- Claim C1 counterexample: with user 1 on an open shift, the manual
clockout command produces different local state depending on whether the
spreadsheet append succeeds, because on failure it returns before the
local mutation; so the active-shift and last-clockout state after the
operation is not the same whether the sink call succeeds or fails. -/
theorem c1_counterexample :
    (clockout (BotState.mk [] [(1, Shift.mk (TimeStr.good 0) (some 7))] [])
        1 100 false).1 ≠
      (clockout (BotState.mk [] [(1, Shift.mk (TimeStr.good 0) (some 7))] [])
        1 100 true).1 := by
  decide

/-- Claim C1 amended: for the manual clock-in, manual clock-out and force
clock-out commands, a failure of the spreadsheet append aborts the command
before any local mutation, so the local state is returned entirely
unchanged: the sink failure blocks the local mutation (rather than the
mutation proceeding independently of the sink outcome), but it never
rolls back, corrupts or partially applies local state. -/
theorem c1_amended_sink_failure_aborts (s : BotState) (u : UserId)
    (g : GuildId) (now : Int) :
    (clockin s u g now false).1 = s ∧ (clockout s u now false).1 = s ∧
      (forceclockout s u now false).1 = s := by
  refine ⟨?_, ?_, ?_⟩
  · unfold clockin
    by_cases he : u ∈ s.excluded_user_ids
    · simp [he]
    · by_cases hc : can_clock_in s u now <;> simp [he, hc]
  · unfold clockout
    by_cases he : u ∈ s.excluded_user_ids <;> simp [he]
  · unfold forceclockout
    simp

/-- Claim C2 counterexample: the store write save_active_shift_db is an
unconditional INSERT OR REPLACE, so called for user 1 who already has an
open shift with clock-in time 100 it silently replaces the record with the
new clock-in time 200: it neither fails with an already-open error nor
leaves the existing clock-in time unchanged. -/
theorem c2_counterexample :
    save_active_shift_db [(1, Shift.mk (TimeStr.good 100) (some 5))] 1
        (TimeStr.good 200) (some 5) =
        [(1, Shift.mk (TimeStr.good 200) (some 5))] ∧
      dictGet (save_active_shift_db [(1, Shift.mk (TimeStr.good 100) (some 5))]
          1 (TimeStr.good 200) (some 5)) 1 ≠
        some (Shift.mk (TimeStr.good 100) (some 5)) := by
  constructor <;> decide

/-- Claim C2 amended: attempting a manual clock-in for a user who already
has an open shift is denied by the caller-side can_clock_in check and
recovered as a local no-op: the state, in particular the existing open
shift and its clock-in time, is unchanged, and the outcome is a denial
message, never a crash.  The store itself does not re-validate:
save_active_shift_db is an unconditional upsert (see the
counterexample). -/
theorem c2_amended_clockin_noop_on_open_shift (s : BotState) (u : UserId)
    (g : GuildId) (now : Int) (k : Bool) (sh : Shift)
    (h : dictGet s.active_shifts u = some sh) :
    (clockin s u g now k).1 = s ∧
      ((clockin s u g now k).2 = ClockinOutcome.excludedMember ∨
        (clockin s u g now k).2 = ClockinOutcome.cannotClockIn) := by
  have hc : can_clock_in s u now = false := can_clock_in_of_active now (by simp [h])
  unfold clockin
  by_cases he : u ∈ s.excluded_user_ids <;> simp [he, hc]

/-- Witness for the amended claim C2 at a concrete state with an open
shift. -/
theorem c2_amended_witness :
    (clockin (BotState.mk [] [(1, Shift.mk (TimeStr.good 0) (some 7))] [])
        1 7 100 true).1 =
      BotState.mk [] [(1, Shift.mk (TimeStr.good 0) (some 7))] [] ∧
      ((clockin (BotState.mk [] [(1, Shift.mk (TimeStr.good 0) (some 7))] [])
          1 7 100 true).2 = ClockinOutcome.excludedMember ∨
        (clockin (BotState.mk [] [(1, Shift.mk (TimeStr.good 0) (some 7))] [])
          1 7 100 true).2 = ClockinOutcome.cannotClockIn) :=
  c2_amended_clockin_noop_on_open_shift
    (BotState.mk [] [(1, Shift.mk (TimeStr.good 0) (some 7))] []) 1 7 100 true
    (Shift.mk (TimeStr.good 0) (some 7)) rfl

/-- Claim C4: clock-out is permissive for a non-excluded user: with the
spreadsheet append succeeding, the manual clockout completes even when no
shift is open (flagged with the was-not-active outcome), always sets the
last clock-out of the user to the operation's time, and leaves the user
with no open shift; the force clock-out behaves the same way.  (A failing
spreadsheet append instead aborts the command, the subject of claim C1.) -/
theorem c4_clockout_permissive (s : BotState) (u : UserId) (now : Int)
    (h : u ∉ s.excluded_user_ids) :
    dictGet ((clockout s u now true).1).active_shifts u = none ∧
    dictGet ((clockout s u now true).1).last_clockouts u = some (TimeStr.good now) ∧
    (dictGet s.active_shifts u = none →
      (clockout s u now true).2 = ClockoutOutcome.clockedOutNotActive) ∧
    dictGet ((forceclockout s u now true).1).active_shifts u = none ∧
    dictGet ((forceclockout s u now true).1).last_clockouts u = some (TimeStr.good now) ∧
    (dictGet s.active_shifts u = none →
      (forceclockout s u now true).2 = ClockoutOutcome.clockedOutNotActive) := by
  by_cases hw : (dictGet s.active_shifts u).isSome = true
  · obtain ⟨sh, hsh⟩ := Option.isSome_iff_exists.mp hw
    unfold clockout forceclockout
    simp [h, hw, dictGet_dictDel, dictGet_dictSet, hsh]
  · have hnone : dictGet s.active_shifts u = none := by
      cases hq : dictGet s.active_shifts u
      · rfl
      · rw [hq] at hw
        simp at hw
    unfold clockout forceclockout
    simp [h, hw, dictGet_dictSet, hnone]

/-- Witness for claim C4 on a concrete state where the user has no open
shift. -/
theorem c4_witness :
    dictGet ((clockout (BotState.mk [] [] []) 1 50 true).1).active_shifts 1 = none ∧
    dictGet ((clockout (BotState.mk [] [] []) 1 50 true).1).last_clockouts 1 =
      some (TimeStr.good 50) ∧
    (clockout (BotState.mk [] [] []) 1 50 true).2 =
      ClockoutOutcome.clockedOutNotActive := by
  have h := c4_clockout_permissive (BotState.mk [] [] []) 1 50 (by decide)
  exact ⟨h.1, h.2.1, h.2.2.1 rfl⟩

/-- Claim C6: excluding a not-yet-excluded user removes any open shift of
that user (the open list no longer contains the user), leaves the
last-clockout map untouched, and marks the user excluded, after which
can_clock_in denies at every time while the user remains excluded;
exclude and include are idempotent on the state. -/
theorem c6_exclude_closes_shift (s : BotState) (u : UserId)
    (h : u ∉ s.excluded_user_ids) :
    dictGet ((exclude s u).1).active_shifts u = none ∧
    (∀ p ∈ ((exclude s u).1).active_shifts, p.1 ≠ u) ∧
    ((exclude s u).1).last_clockouts = s.last_clockouts ∧
    u ∈ ((exclude s u).1).excluded_user_ids ∧
    (∀ s2 : BotState, ∀ now : Int, u ∈ s2.excluded_user_ids →
      can_clock_in s2 u now = false) ∧
    (exclude ((exclude s u).1) u).1 = (exclude s u).1 ∧
    (include_user ((include_user s u).1) u).1 = (include_user s u).1 := by
  have hexgen : ∀ t : BotState, u ∈ t.excluded_user_ids → (exclude t u).1 = t := by
    intro t ht
    unfold exclude
    simp [ht]
  have hingen : ∀ t : BotState, u ∉ t.excluded_user_ids → (include_user t u).1 = t := by
    intro t ht
    unfold include_user
    simp [ht]
  have hactive : dictGet ((exclude s u).1).active_shifts u = none := by
    unfold exclude
    by_cases hw : (dictGet s.active_shifts u).isSome = true
    · simp [h, hw, dictGet_dictDel]
    · have hnone : dictGet s.active_shifts u = none := by
        cases hq : dictGet s.active_shifts u
        · rfl
        · rw [hq] at hw
          simp at hw
      simp [h, hw, hnone]
  have hmem : u ∈ ((exclude s u).1).excluded_user_ids := by
    unfold exclude
    by_cases hw : (dictGet s.active_shifts u).isSome = true <;> simp [h, hw]
  have hlast : ((exclude s u).1).last_clockouts = s.last_clockouts := by
    unfold exclude
    by_cases hw : (dictGet s.active_shifts u).isSome = true <;> simp [h, hw]
  refine ⟨hactive, (dictGet_eq_none_iff _ _).mp hactive, hlast, hmem,
    fun s2 now hm => can_clock_in_of_excluded now hm, hexgen _ hmem, ?_⟩
  by_cases hin : u ∈ s.excluded_user_ids
  · have hni : u ∉ ((include_user s u).1).excluded_user_ids := by
      unfold include_user
      simp [hin, List.mem_filter]
    exact hingen _ hni
  · simp only [hingen s hin]

/-- Witness for claim C6 on a concrete state with an open shift for the
excluded user. -/
theorem c6_witness :
    dictGet ((exclude (BotState.mk [] [(1, Shift.mk (TimeStr.good 0) (some 7))]
        [(2, TimeStr.good 5)]) 1).1).active_shifts 1 = none ∧
    ((exclude (BotState.mk [] [(1, Shift.mk (TimeStr.good 0) (some 7))]
        [(2, TimeStr.good 5)]) 1).1).last_clockouts = [(2, TimeStr.good 5)] ∧
    1 ∈ ((exclude (BotState.mk [] [(1, Shift.mk (TimeStr.good 0) (some 7))]
        [(2, TimeStr.good 5)]) 1).1).excluded_user_ids := by
  have h := c6_exclude_closes_shift
    (BotState.mk [] [(1, Shift.mk (TimeStr.good 0) (some 7))]
      [(2, TimeStr.good 5)]) 1 (by decide)
  exact ⟨h.1, h.2.2.1, h.2.2.2.1⟩

/-- Claim C5: on a sweeper tick at time now, an open shift whose stored
clock-in string parses to T is force-closed exactly when now - T is at
least 14 hours: it is removed from the open set, the last clock-out of
the user is set to now and an Auto-tagged expiry row for the user is
emitted; when now - T is below 14 hours the record, the last clock-out
of the user and the emitted rows are all left untouched. -/
theorem c5_sweeper_expiry_boundary (s : BotState) (u : UserId) (sh : Shift)
    (T now : Int) (hn : shiftKeysNodup s)
    (hget : dictGet s.active_shifts u = some sh)
    (hparse : parseTime sh.clock_in = some T) :
    (max_shift_duration ≤ now - T →
      dictGet ((sweep_tick s now).1).active_shifts u = none ∧
      dictGet ((sweep_tick s now).1).last_clockouts u = some (TimeStr.good now) ∧
      (u, now) ∈ (sweep_tick s now).2) ∧
    (now - T < max_shift_duration →
      dictGet ((sweep_tick s now).1).active_shifts u = some sh ∧
      dictGet ((sweep_tick s now).1).last_clockouts u = dictGet s.last_clockouts u ∧
      ∀ e ∈ (sweep_tick s now).2, e.1 ≠ u) := by
  have hmemiff := mem_expiredKeys_iff hn hget now
  have hexp : is_expired now (u, sh) = decide (max_shift_duration ≤ now - T) := by
    unfold is_expired
    simp [hparse]
  constructor
  · intro hle
    have hin : u ∈ (s.active_shifts.filter (is_expired now)).map Prod.fst := by
      rw [hmemiff, hexp]
      simp only [decide_eq_true_eq]
      exact hle
    refine ⟨?_, ?_, ?_⟩
    · rw [sweep_tick_active]
      simp [hin]
    · rw [sweep_tick_last]
      simp [hin]
    · rw [sweep_tick_events]
      refine List.mem_map.mpr ⟨(u, sh), List.mem_filter.mpr
        ⟨mem_of_dictGet_eq_some hget, ?_⟩, rfl⟩
      rw [hexp]
      simp only [decide_eq_true_eq]
      exact hle
  · intro hlt
    have hnin : u ∉ (s.active_shifts.filter (is_expired now)).map Prod.fst := by
      rw [hmemiff, hexp]
      simp only [decide_eq_true_eq]
      omega
    refine ⟨?_, ?_, ?_⟩
    · rw [sweep_tick_active]
      simp [hnin, hget]
    · rw [sweep_tick_last]
      simp [hnin]
    · intro e he hequ
      apply hnin
      rw [sweep_tick_events] at he
      rcases List.mem_map.mp he with ⟨p, hpf, hpe⟩
      have h1 : p.1 = e.1 := by rw [← hpe]
      rw [← hequ, ← h1]
      exact List.mem_map_of_mem Prod.fst hpf

/-- Witness for claim C5: a shift opened at time 0 is closed by a tick at
exactly 14 hours. -/
theorem c5_witness :
    dictGet ((sweep_tick (BotState.mk []
        [(1, Shift.mk (TimeStr.good 0) (some 7))] []) 50400).1).active_shifts 1 =
      none ∧
    dictGet ((sweep_tick (BotState.mk []
        [(1, Shift.mk (TimeStr.good 0) (some 7))] []) 50400).1).last_clockouts 1 =
      some (TimeStr.good 50400) ∧
    (1, (50400 : Int)) ∈ (sweep_tick (BotState.mk []
        [(1, Shift.mk (TimeStr.good 0) (some 7))] []) 50400).2 :=
  (c5_sweeper_expiry_boundary (BotState.mk []
      [(1, Shift.mk (TimeStr.good 0) (some 7))] []) 1
    (Shift.mk (TimeStr.good 0) (some 7)) 0 50400 (by decide) rfl rfl).1
    (by decide)

/-- Claim C8: a corrupted stored clock-in string makes the sweeper skip
that user for the tick: the corrupted record is neither modified nor
deleted, the last clock-out of that user is untouched, no expiry row is
emitted for that user, and the batch is not aborted: every user whose
parsed open shift is expired is still closed on the same tick. -/
theorem c8_sweeper_skips_corrupt (s : BotState) (u : UserId) (sh : Shift)
    (now : Int) (hn : shiftKeysNodup s)
    (hget : dictGet s.active_shifts u = some sh)
    (hbad : parseTime sh.clock_in = none) :
    dictGet ((sweep_tick s now).1).active_shifts u = some sh ∧
    dictGet ((sweep_tick s now).1).last_clockouts u = dictGet s.last_clockouts u ∧
    (∀ e ∈ (sweep_tick s now).2, e.1 ≠ u) ∧
    ∀ v : UserId, ∀ sh2 : Shift, ∀ T : Int,
      dictGet s.active_shifts v = some sh2 → parseTime sh2.clock_in = some T →
      max_shift_duration ≤ now - T →
      dictGet ((sweep_tick s now).1).active_shifts v = none := by
  have hexp : is_expired now (u, sh) = false := by
    unfold is_expired
    simp [hbad]
  have hnin : u ∉ (s.active_shifts.filter (is_expired now)).map Prod.fst := by
    rw [mem_expiredKeys_iff hn hget now, hexp]
    simp
  refine ⟨?_, ?_, ?_, ?_⟩
  · rw [sweep_tick_active]
    simp [hnin, hget]
  · rw [sweep_tick_last]
    simp [hnin]
  · intro e he hequ
    apply hnin
    rw [sweep_tick_events] at he
    rcases List.mem_map.mp he with ⟨p, hpf, hpe⟩
    have h1 : p.1 = e.1 := by rw [← hpe]
    rw [← hequ, ← h1]
    exact List.mem_map_of_mem Prod.fst hpf
  · intro v sh2 T hv hp hle
    have hvin : v ∈ (s.active_shifts.filter (is_expired now)).map Prod.fst := by
      rw [mem_expiredKeys_iff hn hv now]
      unfold is_expired
      simp [hp, hle]
    rw [sweep_tick_active]
    simp [hvin]

/-- Witness for claim C8: a tick at 14 hours skips the corrupted record of
user 1 and still closes the expired shift of user 2. -/
theorem c8_witness :
    dictGet ((sweep_tick (BotState.mk []
        [(1, Shift.mk (TimeStr.bad "xx") (some 7)),
         (2, Shift.mk (TimeStr.good 0) (some 7))] []) 50400).1).active_shifts 1 =
      some (Shift.mk (TimeStr.bad "xx") (some 7)) ∧
    dictGet ((sweep_tick (BotState.mk []
        [(1, Shift.mk (TimeStr.bad "xx") (some 7)),
         (2, Shift.mk (TimeStr.good 0) (some 7))] []) 50400).1).active_shifts 2 =
      none := by
  have h := c8_sweeper_skips_corrupt (BotState.mk []
      [(1, Shift.mk (TimeStr.bad "xx") (some 7)),
       (2, Shift.mk (TimeStr.good 0) (some 7))] []) 1
    (Shift.mk (TimeStr.bad "xx") (some 7)) 50400 (by decide) rfl rfl
  exact ⟨h.1, h.2.2.2 2 (Shift.mk (TimeStr.good 0) (some 7)) 0 rfl rfl (by decide)⟩

theorem nodup_applyOp {s : BotState} (hn : shiftKeysNodup s) (op : Op) :
    shiftKeysNodup (applyOp s op) := by
  unfold shiftKeysNodup at hn ⊢
  cases op with
  | cin u g now k =>
    show (dictKeys ((clockin s u g now k).1).active_shifts).Nodup
    unfold clockin
    by_cases he : u ∈ s.excluded_user_ids
    · simp only [if_pos he]
      exact hn
    · simp only [if_neg he]
      by_cases hc : (!(can_clock_in s u now)) = true
      · simp only [if_pos hc]
        exact hn
      · simp only [if_neg hc]
        cases k
        · exact hn
        · exact nodup_dictKeys_dictSet hn u (Shift.mk (TimeStr.good now) (some g))
  | vjoin u g now k =>
    show (dictKeys (auto_clockin s u g now k).active_shifts).Nodup
    unfold auto_clockin
    by_cases he : u ∈ s.excluded_user_ids
    · simp only [if_pos he]
      exact hn
    · simp only [if_neg he]
      by_cases hc : can_clock_in s u now = true
      · simp only [if_pos hc]
        exact nodup_dictKeys_dictSet hn u (Shift.mk (TimeStr.good now) (some g))
      · simp only [if_neg hc]
        exact hn
  | cout u now k =>
    show (dictKeys ((clockout s u now k).1).active_shifts).Nodup
    unfold clockout
    by_cases he : u ∈ s.excluded_user_ids
    · simp only [if_pos he]
      exact hn
    · simp only [if_neg he]
      cases k
      · exact hn
      · by_cases hw : (dictGet s.active_shifts u).isSome = true
        · simp only [hw, if_pos, if_true]
          exact nodup_dictKeys_dictDel hn u
        · simp only [hw, if_neg, if_false]
          exact hn
  | fcout u now k =>
    show (dictKeys ((forceclockout s u now k).1).active_shifts).Nodup
    unfold forceclockout
    cases k
    · exact hn
    · by_cases hw : (dictGet s.active_shifts u).isSome = true
      · simp only [hw, if_pos, if_true]
        exact nodup_dictKeys_dictDel hn u
      · simp only [hw, if_neg, if_false]
        exact hn
  | excl u =>
    show (dictKeys ((exclude s u).1).active_shifts).Nodup
    unfold exclude
    by_cases he : u ∈ s.excluded_user_ids
    · simp only [if_pos he]
      exact hn
    · simp only [if_neg he]
      by_cases hw : (dictGet s.active_shifts u).isSome = true
      · simp only [hw, if_pos, if_true]
        exact nodup_dictKeys_dictDel hn u
      · simp only [hw, if_neg, if_false]
        exact hn
  | incl u =>
    show (dictKeys ((include_user s u).1).active_shifts).Nodup
    unfold include_user
    by_cases he : u ∈ s.excluded_user_ids
    · simp only [if_pos he]
      exact hn
    · simp only [if_neg he]
      exact hn
  | sweep now =>
    show (dictKeys ((sweep_tick s now).1).active_shifts).Nodup
    unfold sweep_tick
    dsimp only
    rw [sweep_fold_active]
    exact nodup_dictKeys_foldl_dictDel _ hn

/-- Claim C7: at most one open shift record per user at any time: the
distinctness of the active_shifts keys is preserved by the manual
clock-in, the automatic clock-in, the manual clock-out, the force
clock-out, exclude, include and the sweeper tick, and hence by every
sequence of these operations. -/
theorem c7_at_most_one_open_shift (s : BotState) (ops : List Op)
    (hn : shiftKeysNodup s) : shiftKeysNodup (applyOps s ops) := by
  induction ops generalizing s with
  | nil => exact hn
  | cons op ops ih =>
    show shiftKeysNodup (List.foldl applyOp (applyOp s op) ops)
    exact ih (applyOp s op) (nodup_applyOp hn op)

/-- Witness for claim C7 on a concrete operation sequence from the empty
state. -/
theorem c7_witness :
    shiftKeysNodup (BotState.mk [] [] []) ∧
    shiftKeysNodup (applyOps (BotState.mk [] [] [])
      [Op.cin 1 7 0 true, Op.vjoin 2 7 10 false, Op.sweep 60000,
       Op.excl 2, Op.cout 1 60500 true]) :=
  ⟨by decide, c7_at_most_one_open_shift (BotState.mk [] [] [])
    [Op.cin 1 7 0 true, Op.vjoin 2 7 10 false, Op.sweep 60000,
     Op.excl 2, Op.cout 1 60500 true] (by decide)⟩

end ClockBot
